import Mathlib

/-!
Shallow embedding of the dynamic memory manager in
`src/lab-3-memory/src/memmgr.c` (SNU_2021_fall_SysProg).

Modelling choices:
* The heap word type `TYPE` is `unsigned long` (64 bits, `TYPE_SIZE = 8`).
  Machine words are modelled as `Nat` reduced modulo `2 ^ 64` at each store.
* Memory is a function from byte addresses to the 64-bit word stored at that
  address; the program only ever reads or writes at 8-aligned addresses.
  Freshly provided memory is modelled as zero-filled (the provider obtains
  pages from the OS).
* `SIZE_MASK = ~0x7` on a 64-bit word clears the low three bits, so for a
  stored word `v < 2 ^ 64` we have `SIZE v = v - v % 8` and `STATUS v = v % 8`.
* The Region Provider (`dataseg`, not part of `src/`): modelled from the spec
  (section 6): `ds_sbrk(n)` extends the region by exactly the requested `n`
  bytes and, like `sbrk`, returns the previous break; `ds_sbrk(0)` returns the
  current break.  Growth never fails in the model (a provider failure is fatal
  in the program, so no post-state exists for it).
* C loops (`ff`/`nf`/`bf` scans, the allocator itself) are given an explicit
  fuel argument; a result of `none` at every fuel means the loop does not
  terminate, `some r` means the loop finished with result `r`.
* Pointer subtraction uses truncated `Nat` subtraction; every address
  actually dereferenced in the theorems below stays well above zero.
-/

/-- Allocation policy, from `AllocationPolicy` in `memmgr.h` / `mm_init`. -/
inductive Policy where
  | FirstFit
  | NextFit
  | BestFit
deriving DecidableEq, Repr

/-- Global state of the memory manager: the heap memory plus the globals of
`memmgr.c` (`ds_heap_brk`, `heap_start`, `heap_end`, `nf_ptr`, and the
allocation policy selected by `mm_init`). -/
structure MM where
  mem : Nat → Nat
  ds_heap_start : Nat
  ds_heap_brk : Nat
  heap_start : Nat
  heap_end : Nat
  nf_ptr : Option Nat
  policy : Policy

/-- Source macro `TYPE_SIZE = sizeof(TYPE)` — 8 bytes. -/
def TYPE_SIZE : Nat := 8

/-- Source macro `ALLOC = 1`. -/
def ALLOC : Nat := 1

/-- Source macro `FREE = 0`. -/
def FREE : Nat := 0

/-- Source macro `CHUNKSIZE = 1*(1 << 12)`. -/
def CHUNKSIZE : Nat := 4096

/-- Source macro `BS = 32` — minimal block size. -/
def BS : Nat := 32

/-- Source macro `SIZE(v) = v & SIZE_MASK`: for a 64-bit word, clearing the low
three status bits leaves `v - v % 8`. -/
def SIZE (v : Nat) : Nat := v - v % 8

/-- Source macro `STATUS(v) = v & STATUS_MASK` with `STATUS_MASK = 0x7`. -/
def STATUS (v : Nat) : Nat := v % 8

/-- Source macro `PACK(size,status) = (size) | (status)`. -/
def PACK (size status : Nat) : Nat := size ||| status

/-- Source macro `GET(p) = *(TYPE*)(p)`. -/
def GET (m : MM) (p : Nat) : Nat := m.mem p

/-- Source macro `GET_SIZE(p) = SIZE(GET(p))`. -/
def GET_SIZE (m : MM) (p : Nat) : Nat := SIZE (GET m p)

/-- Source macro `GET_STATUS(p) = STATUS(GET(p))`. -/
def GET_STATUS (m : MM) (p : Nat) : Nat := STATUS (GET m p)

/-- Source macro `PUT(p, val) = (*(TYPE*)(p) = (val))`: a 64-bit store truncates the
value modulo `2 ^ 64`. -/
def PUT (m : MM) (p v : Nat) : MM :=
  { m with mem := fun q => if q = p then v % 2 ^ 64 else m.mem q }

/-- Source macro `HDRP(bp) = PREV_PTR(bp)` — header address of block pointer. -/
def HDRP (bp : Nat) : Nat := bp - 8

/-- Source macro `FTRP(bp) = PREV_PTR(HDRP(bp) + GET_SIZE(HDRP(bp)))` — footer
address, read from the block's current header. -/
def FTRP (m : MM) (bp : Nat) : Nat := HDRP bp + GET_SIZE m (HDRP bp) - 8

/-- Function `mm_init(ap)` (lines 179-239): after `ds_sbrk(CHUNKSIZE)` the break is
`dsStart + CHUNKSIZE`; `heap_start`/`heap_end` are computed by the two
division expressions of lines 222-223; then the two sentinel half-blocks and
the initial free block covering `HEAP_SIZE = heap_end - heap_start` bytes are
written.  `nf_ptr` holds its program-start value `NULL`. -/
def mmInit (dsStart : Nat) (ap : Policy) : MM :=
  let brk := dsStart + CHUNKSIZE
  let hs := (dsStart + BS) / BS * BS
  let he := (brk - 1) / BS * BS
  let m0 : MM :=
    { mem := fun _ => 0, ds_heap_start := dsStart, ds_heap_brk := brk,
      heap_start := hs, heap_end := he, nf_ptr := none, policy := ap }
  let m1 := PUT m0 (hs - 8) (PACK 0 ALLOC)
  let m2 := PUT m1 he (PACK 0 ALLOC)
  let m3 := PUT m2 hs (PACK (he - hs) FREE)
  PUT m3 (he - 8) (PACK (he - hs) FREE)

/-- The common scan loop of `ff_get_free_block` (lines 381-383) and
`nf_get_free_block` (lines 406-408):
`while ((p < heap_end) && ((size > GET_SIZE(p)) || (GET_STATUS(p) == ALLOC)))
   p += GET_SIZE(p);`
`some h` is the final loop value, `none` means the fuel ran out (the C loop
did not terminate within `fuel` iterations). -/
def scanLoop : Nat → MM → Nat → Nat → Option Nat
  | 0, _, _, _ => none
  | fuel + 1, m, size, hdrp =>
    if hdrp < m.heap_end ∧ (GET_SIZE m hdrp < size ∨ GET_STATUS m hdrp = ALLOC) then
      scanLoop fuel m size (hdrp + GET_SIZE m hdrp)
    else some hdrp

/-- Function `ff_get_free_block` (lines 372-390): scan from `heap_start`; if the loop
stops before `heap_end` return `NEXT_PTR(hdrp)`, else `NULL`. -/
def ffGetFreeBlock (fuel : Nat) (m : MM) (size : Nat) : Option (Option Nat) :=
  match scanLoop fuel m size m.heap_start with
  | none => none
  | some hdrp => if hdrp < m.heap_end then some (some (hdrp + 8)) else some none

/-- The cursor the next-fit scan starts from: `if (nf_ptr == NULL) nf_ptr =
heap_start;` (line 403). -/
def nfStart (m : MM) : Nat :=
  match m.nf_ptr with
  | none => m.heap_start
  | some p => p

/-- Function `nf_get_free_block` (lines 396-415): scan from the persisted cursor; on
success return `NEXT_PTR(nf_ptr)` leaving the cursor at the found header; on
reaching the end set the cursor to `NULL` and return `NULL`. -/
def nfGetFreeBlock (fuel : Nat) (m : MM) (size : Nat) : Option (Option Nat × MM) :=
  match scanLoop fuel m size (nfStart m) with
  | none => none
  | some hdrp =>
    if hdrp < m.heap_end then some (some (hdrp + 8), { m with nf_ptr := some hdrp })
    else some (none, { m with nf_ptr := none })

/-- The loop of `bf_get_free_block` (lines 433-441), carrying `minSize` and
`bf_ptr`. -/
def bfLoop : Nat → MM → Nat → Nat → Nat → Option Nat → Option (Option Nat)
  | 0, _, _, _, _, _ => none
  | fuel + 1, m, size, hdrp, minSize, bf_ptr =>
    if hdrp < m.heap_end then
      if size ≤ GET_SIZE m hdrp ∧ GET_STATUS m hdrp = FREE then
        if GET_SIZE m hdrp < minSize then
          bfLoop fuel m size (hdrp + GET_SIZE m hdrp) (GET_SIZE m hdrp) (some hdrp)
        else
          bfLoop fuel m size (hdrp + GET_SIZE m hdrp) minSize bf_ptr
      else
        bfLoop fuel m size (hdrp + GET_SIZE m hdrp) minSize bf_ptr
    else some bf_ptr

/-- Function `bf_get_free_block` (lines 421-448): full scan tracking the smallest
qualifying free block, with `minSize` initialised to `HEAP_SIZE`. -/
def bfGetFreeBlock (fuel : Nat) (m : MM) (size : Nat) : Option (Option Nat) :=
  match bfLoop fuel m size m.heap_start (m.heap_end - m.heap_start) none with
  | none => none
  | some none => some none
  | some (some hdrp) => some (some (hdrp + 8))

/-- Dispatcher `get_free_block` — the function pointer installed by `mm_init`
(lines 188-190), dispatched on the recorded policy.  The next-fit variant is
the only one that mutates state (its cursor). -/
def getFreeBlock (fuel : Nat) (m : MM) (size : Nat) : Option (Option Nat × MM) :=
  match m.policy with
  | .FirstFit =>
    match ffGetFreeBlock fuel m size with
    | none => none
    | some r => some (r, m)
  | .NextFit => nfGetFreeBlock fuel m size
  | .BestFit =>
    match bfGetFreeBlock fuel m size with
    | none => none
    | some r => some (r, m)

/-- The adjusted block size of `mm_malloc` line 255:
`asize = ((size + 2 * TYPE_SIZE - 1) / BS + 1) * BS;` in `size_t`
arithmetic, i.e. modulo `2 ^ 64` after the addition and after the final
multiplication. -/
def asize (size : Nat) : Nat :=
  ((size + 2 * TYPE_SIZE - 1) % 2 ^ 64 / BS + 1) * BS % 2 ^ 64

/-- Step 2 of `mm_malloc` (lines 260-273), after a fitting free block with
payload `bp` was found for adjusted size `a`: split when the block is
strictly larger than `a`, otherwise rewrite both tags ALLOC in place; each
`FTRP`/`GET_SIZE` is evaluated on the memory current at its source line. -/
def mallocFit (m1 : MM) (bp a : Nat) : MM :=
  if a < GET_SIZE m1 (HDRP bp) then
    let m2 := PUT m1 (HDRP bp + a) (PACK (GET_SIZE m1 (HDRP bp) - a) FREE)
    let m3 := PUT m2 (FTRP m2 bp) (PACK (GET_SIZE m2 (HDRP bp) - a) FREE)
    let m4 := PUT m3 (HDRP bp) (PACK a ALLOC)
    PUT m4 (FTRP m4 bp) (PACK a ALLOC)
  else
    let m2 := PUT m1 (HDRP bp) (PACK a ALLOC)
    PUT m2 (FTRP m2 bp) (PACK a ALLOC)

/-- Step 3 of `mm_malloc` (lines 275-288), taken when no fitting free block
was found: extend the data segment by `xsize = MAX(a, CHUNKSIZE)` (the
payload pointer `bp` is the previous break returned by `ds_sbrk`), recompute
`heap_end`, rewrite the end sentinel there, and write ALLOC tags for one
block of `xsize` bytes at `bp`. -/
def mallocGrow (m1 : MM) (a : Nat) : Nat × MM :=
  let xsize := max a CHUNKSIZE
  let bp := m1.ds_heap_brk
  let brk := m1.ds_heap_brk + xsize
  let he := (brk - 1) / BS * BS
  let m2 := { m1 with ds_heap_brk := brk, heap_end := he }
  let m3 := PUT m2 he (PACK 0 ALLOC)
  let m4 := PUT m3 (HDRP bp) (PACK xsize ALLOC)
  (bp, PUT m4 (FTRP m4 bp) (PACK xsize ALLOC))

/-- Function `mm_malloc` (lines 242-289).  Result `none` means the call does not
terminate (the free-block scan ran out of fuel); `some (none, m)` is the
`size == 0` path returning `NULL` with the state untouched; `some (some bp,
m')` returns payload pointer `bp`. -/
def mmMalloc (fuel : Nat) (m : MM) (size : Nat) : Option (Option Nat × MM) :=
  if size = 0 then some (none, m)
  else
    match getFreeBlock fuel m (asize size) with
    | none => none
    | some (some bp, m1) => some (some bp, mallocFit m1 bp (asize size))
    | some (none, m1) =>
      let r := mallocGrow m1 (asize size)
      some (some r.1, r.2)

/-- Effect of `memset(p, 0, n)` on the word-level memory: byte addresses in
`[p, p + n)` are zeroed; a word at address `q` covers bytes `[q, q + 8)`
little-endian, so the bytes of that word inside the range are cleared. -/
def memsetZero (m : MM) (p n : Nat) : MM :=
  { m with mem := fun q =>
      let lo := max q p
      let hi := min (q + 8) (p + n)
      if hi ≤ lo then m.mem q
      else m.mem q % 2 ^ (8 * (lo - q)) + m.mem q / 2 ^ (8 * (hi - q)) * 2 ^ (8 * (hi - q)) }

/-- Function `mm_calloc(nmemb, size)` (lines 291-305): `mm_malloc(nmemb * size)`
followed, when the payload is non-NULL, by `memset(payload, 0, nmemb * size)`;
the argument product is `size_t` multiplication, i.e. taken modulo `2 ^ 64`. -/
def mmCalloc (fuel : Nat) (m : MM) (nmemb size : Nat) : Option (Option Nat × MM) :=
  match mmMalloc fuel m (nmemb * size % 2 ^ 64) with
  | none => none
  | some (none, m1) => some (none, m1)
  | some (some bp, m1) => some (some bp, memsetZero m1 bp (nmemb * size % 2 ^ 64))

/-- Function `mm_free(ptr)` (lines 320-363).  `none` models the fatal
`PANIC("You're trying to free already free block.")`, taken exactly when the
header status word is zero (C truthiness of `!GET_STATUS(HDRP(ptr))`).
Otherwise the tags are rewritten FREE and the four coalescing cases run,
with `PREV_BLKP`/`NEXT_BLKP`/`FTRP` evaluated on the current memory exactly
in source order. -/
def mmFree (m : MM) (ptr : Nat) : Option MM :=
  if GET_STATUS m (HDRP ptr) = 0 then none
  else
    let size := GET_SIZE m (HDRP ptr)
    let m1 := PUT m (HDRP ptr) (PACK size FREE)
    let m2 := PUT m1 (FTRP m1 ptr) (PACK size FREE)
    let prev_bp := ptr - GET_SIZE m2 (HDRP ptr - 8)
    let next_bp := ptr + GET_SIZE m2 (HDRP ptr)
    let prev_hdr := HDRP prev_bp
    let next_hdr := HDRP next_bp
    let prev_alloc := GET_STATUS m2 prev_hdr
    let next_alloc := GET_STATUS m2 next_hdr
    if prev_alloc ≠ 0 ∧ next_alloc ≠ 0 then
      some m2
    else if prev_alloc ≠ 0 ∧ next_alloc = 0 then
      let sz := size + GET_SIZE m2 next_hdr
      let m3 := PUT m2 (HDRP ptr) (PACK sz FREE)
      let m4 := PUT m3 (FTRP m3 next_bp) (PACK sz FREE)
      some m4
    else if prev_alloc = 0 ∧ next_alloc ≠ 0 then
      let sz := size + GET_SIZE m2 prev_hdr
      let m3 := PUT m2 prev_hdr (PACK sz FREE)
      let m4 := PUT m3 (FTRP m3 ptr) (PACK sz FREE)
      some m4
    else
      let sz := size + GET_SIZE m2 prev_hdr + GET_SIZE m2 next_hdr
      let m3 := PUT m2 prev_hdr (PACK sz FREE)
      let m4 := PUT m3 (FTRP m3 next_bp) (PACK sz FREE)
      some m4

/-- The block sequence seen by walking from `p` as `mm_check` does
(lines 489-513): record `(address, size, status)`, stop at `heap_end` or on a
zero size. -/
def walkBlocks : Nat → MM → Nat → List (Nat × Nat × Nat)
  | 0, _, _ => []
  | fuel + 1, m, p =>
    if p < m.heap_end then
      let v := GET m p
      (p, SIZE v, STATUS v) ::
        (if SIZE v = 0 then [] else walkBlocks fuel m (p + SIZE v))
    else []

/-- The error-counting walk of `mm_check` (lines 488-513): returns the final
traversal pointer and the number of header/footer mismatches; for each block
the footer at `p + size - TYPE_SIZE` must repeat the header's size and
status; the walk aborts (after counting) on a zero size. -/
def checkWalk : Nat → MM → Nat → Option (Nat × Nat)
  | 0, _, _ => none
  | fuel + 1, m, p =>
    if p < m.heap_end then
      let hdr := GET m p
      let fv := GET m (p + SIZE hdr - TYPE_SIZE)
      let err := if SIZE fv ≠ SIZE hdr ∨ STATUS fv ≠ STATUS hdr then 1 else 0
      if SIZE hdr = 0 then some (p + SIZE hdr, err)
      else
        match checkWalk fuel m (p + SIZE hdr) with
        | none => none
        | some (q, e) => some (q, err + e)
    else some (p, 0)

/-- First component and state extraction for a terminating successful
`mm_malloc` call (definitional helper for naming concrete states). -/
def mallocState (fuel : Nat) (m : MM) (size : Nat) : MM :=
  match mmMalloc fuel m size with
  | some (_, m') => m'
  | none => m

/-- State extraction for a non-panicking `mm_free` call. -/
def freeState (m : MM) (ptr : Nat) : MM :=
  match mmFree m ptr with
  | some m' => m'
  | none => m

/-- The heap right after `mm_init` with first fit and a provider region
starting at address 0. -/
def mInitFF : MM := mmInit 0 .FirstFit

/-- The heap right after `mm_init` with next fit. -/
def mInitNF : MM := mmInit 0 .NextFit

/-- The heap right after `mm_init` with best fit. -/
def mInitBF : MM := mmInit 0 .BestFit

/-- First-fit heap after `mm_malloc(40)` (block `[32,96)` allocated). -/
def mA : MM := mallocState 5 mInitFF 40

/-- After a second `mm_malloc(40)` (block `[96,160)` allocated). -/
def mB : MM := mallocState 5 mA 40

/-- After `mm_free` of the first block (payload 40). -/
def mC4 : MM := freeState mB 40

/-- After `mm_free` of the only allocated block of `mA`. -/
def mAF : MM := freeState mA 40

/-- First-fit heap after `mm_malloc(5000)`, which takes the growth path. -/
def mGrow : MM := mallocState 5 mInitFF 5000

/-- First-fit heap after `mm_malloc(4000)` (exact fit for the whole initial
free block). -/
def mFull : MM := mallocState 5 mInitFF 4000

/-- Growth-path state of `mm_malloc(40)` on the exhausted heap `mFull`. -/
def mSmallGrow : MM := mallocState 5 mFull 40

/-- State produced by the overflowing `mm_calloc` call of claim C10. -/
def mCallocWrap : MM :=
  match mmCalloc 5 mInitFF (2 ^ 32) (2 ^ 32 + 1) with
  | some (_, m') => m'
  | none => mInitFF

/-! Helper lemmas about the tag codec and single stores. -/

/-- Packing with a small status into a size with clear low bits is addition:
the bitwise or of `8 * k` and `st < 8` has no overlapping bits. -/
theorem eight_mul_lor_eq_add (k st : Nat) (h : st < 8) : 8 * k ||| st = 8 * k + st := by
  apply Nat.eq_of_testBit_eq
  intro j
  rw [Nat.testBit_or]
  rw [show 8 * k + st = 2 ^ 3 * k + st by ring]
  rw [show 8 * k = 2 ^ 3 * k + 0 by ring]
  rw [Nat.testBit_mul_pow_two_add k (show (0 : Nat) < 2 ^ 3 by norm_num) j,
      Nat.testBit_mul_pow_two_add k (show st < 2 ^ 3 from h) j]
  by_cases hj : j < 3
  · simp [hj]
  · have hlt : st < 2 ^ j := by
      calc st < 2 ^ 3 := h
        _ ≤ 2 ^ j := Nat.pow_le_pow_right (by norm_num) (by omega)
    simp [hj, Nat.testBit_lt_two_pow hlt]

/-- PACK with status FREE is the identity on the size. -/
theorem PACK_FREE (s : Nat) : PACK s FREE = s := Nat.or_zero s

/-- PACK of an 8-aligned size with a status below 8 is plain addition. -/
theorem PACK_eq_add (s st : Nat) (h8 : s % 8 = 0) (hst : st < 8) : PACK s st = s + st := by
  obtain ⟨k, hk⟩ := Nat.dvd_of_mod_eq_zero h8
  rw [PACK, hk, eight_mul_lor_eq_add k st hst]

/-- Reading a status through one store. -/
theorem STATUS_PUT (m : MM) (p v q : Nat) :
    GET_STATUS (PUT m p v) q = if q = p then v % 2 ^ 64 % 8 else GET_STATUS m q := by
  simp only [GET_STATUS, GET, PUT, STATUS]
  split <;> rfl

/-- Reading a size through one store. -/
theorem SIZE_PUT (m : MM) (p v q : Nat) :
    GET_SIZE (PUT m p v) q = if q = p then SIZE (v % 2 ^ 64) else GET_SIZE m q := by
  simp only [GET_SIZE, GET, PUT]
  split <;> rfl

/-- Extracted sizes have clear status bits. -/
theorem GET_SIZE_mod_eight (m : MM) (p : Nat) : GET_SIZE m p % 8 = 0 := by
  simp only [GET_SIZE, SIZE]
  omega

/-- A sum of two extracted sizes has clear status bits. -/
theorem GET_SIZE_add_mod_eight (m m' : MM) (p q : Nat) :
    (GET_SIZE m p + GET_SIZE m' q) % 8 = 0 := by
  simp only [GET_SIZE, SIZE]
  omega

/-- A sum of three extracted sizes has clear status bits. -/
theorem GET_SIZE_add3_mod_eight (m m' m'' : MM) (p q r : Nat) :
    (GET_SIZE m p + GET_SIZE m' q + GET_SIZE m'' r) % 8 = 0 := by
  simp only [GET_SIZE, SIZE]
  omega

/-- A store whose value has clear status bits leaves status 0 at its own
address. -/
theorem STATUS_PUT_self (m : MM) (p v : Nat) (hv : v % 2 ^ 64 % 8 = 0) :
    GET_STATUS (PUT m p v) p = 0 := by
  rw [STATUS_PUT, if_pos rfl]
  exact hv

/-- A store whose value has clear status bits preserves a zero status at any
address. -/
theorem STATUS_PUT_keep (m : MM) (p v q : Nat) (hv : v % 2 ^ 64 % 8 = 0)
    (hq : GET_STATUS m q = 0) : GET_STATUS (PUT m p v) q = 0 := by
  rw [STATUS_PUT]
  split
  · exact hv
  · exact hq

/-- A stored FREE tag of 8-aligned size reads back status 0. -/
theorem PACK_FREE_store_status (s : Nat) (h : s % 8 = 0) :
    PACK s FREE % 2 ^ 64 % 8 = 0 := by
  rw [PACK_FREE, Nat.mod_mod_of_dvd s (show (8 : Nat) ∣ 2 ^ 64 from ⟨2 ^ 61, by norm_num⟩), h]

/-- Unconditional zero-size shared fact: `mm_malloc(0)` returns NULL and the
state is returned unchanged (used by the C7 and C10 developments). -/
theorem mmMalloc_zero (fuel : Nat) (m : MM) : mmMalloc fuel m 0 = some (none, m) := rfl

/-! Claim C7: zero-byte allocation. -/

/-- C7: `mm_malloc(0)` returns NULL (`none`) and performs no allocation and
no side effect — the returned state is the input state itself, so all tags,
heap bounds and the next-fit cursor are unchanged; this is a normal return,
not the fatal-error path (`some`, not the divergence marker `none`). -/
theorem mm_malloc_zero_is_nop (fuel : Nat) (m : MM) :
    mmMalloc fuel m 0 = some (none, m) :=
  mmMalloc_zero fuel m

/-! Claim C6: double free is fatal. -/

/-- C6: on any state, a successful `mm_free(ptr)` leaves the header tag of
`ptr` reading FREE, and therefore an immediately repeated `mm_free(ptr)` —
releasing the same pointer again with no intervening allocation that reuses
the block — hits the `PANIC("You're trying to free already free block.")`
path (modelled by `none`): release on a header that already reads FREE is
fatal, not silent. -/
theorem mm_free_double_free_fatal (m m' : MM) (ptr : Nat)
    (h : mmFree m ptr = some m') :
    GET_STATUS m' (HDRP ptr) = FREE ∧ mmFree m' ptr = none := by
  have hfree : GET_STATUS m' (HDRP ptr) = 0 := by
    simp only [mmFree] at h
    split at h
    · exact Option.noConfusion h
    · split at h
      · injection h with h
        subst h
        exact STATUS_PUT_keep _ _ _ _ (PACK_FREE_store_status _ (GET_SIZE_mod_eight _ _))
          (STATUS_PUT_self _ _ _ (PACK_FREE_store_status _ (GET_SIZE_mod_eight _ _)))
      · split at h
        · injection h with h
          subst h
          exact STATUS_PUT_keep _ _ _ _
            (PACK_FREE_store_status _ (GET_SIZE_add_mod_eight _ _ _ _))
            (STATUS_PUT_keep _ _ _ _
              (PACK_FREE_store_status _ (GET_SIZE_add_mod_eight _ _ _ _))
              (STATUS_PUT_keep _ _ _ _
                (PACK_FREE_store_status _ (GET_SIZE_mod_eight _ _))
                (STATUS_PUT_self _ _ _ (PACK_FREE_store_status _ (GET_SIZE_mod_eight _ _)))))
        · split at h
          · injection h with h
            subst h
            exact STATUS_PUT_keep _ _ _ _
              (PACK_FREE_store_status _ (GET_SIZE_add_mod_eight _ _ _ _))
              (STATUS_PUT_keep _ _ _ _
                (PACK_FREE_store_status _ (GET_SIZE_add_mod_eight _ _ _ _))
                (STATUS_PUT_keep _ _ _ _
                  (PACK_FREE_store_status _ (GET_SIZE_mod_eight _ _))
                  (STATUS_PUT_self _ _ _ (PACK_FREE_store_status _ (GET_SIZE_mod_eight _ _)))))
          · injection h with h
            subst h
            exact STATUS_PUT_keep _ _ _ _
              (PACK_FREE_store_status _ (GET_SIZE_add3_mod_eight _ _ _ _ _ _))
              (STATUS_PUT_keep _ _ _ _
                (PACK_FREE_store_status _ (GET_SIZE_add3_mod_eight _ _ _ _ _ _))
                (STATUS_PUT_keep _ _ _ _
                  (PACK_FREE_store_status _ (GET_SIZE_mod_eight _ _))
                  (STATUS_PUT_self _ _ _ (PACK_FREE_store_status _ (GET_SIZE_mod_eight _ _)))))
  refine ⟨hfree, ?_⟩
  simp only [mmFree]
  rw [if_pos hfree]

set_option maxHeartbeats 2000000 in
/-- Witness for C6 on a concrete reachable heap: first fit, one `mm_malloc(40)`
block, freed once successfully, freed twice fatally. -/
theorem mm_free_double_free_fatal_witness :
    mmFree mA 40 = some mAF ∧ GET_STATUS mAF (HDRP 40) = FREE ∧ mmFree mAF 40 = none := by
  refine ⟨rfl, ?_, ?_⟩
  · exact (mm_free_double_free_fatal mA mAF 40 rfl).1
  · exact (mm_free_double_free_fatal mA mAF 40 rfl).2

/-! Claim C8: next-fit behaviour. -/

/-- The scan pointer never moves backwards. -/
theorem scanLoop_le (fuel : Nat) (m : MM) (size : Nat) :
    ∀ h h2, scanLoop fuel m size h = some h2 → h ≤ h2 := by
  induction fuel with
  | zero => intro h h2 hs; exact Option.noConfusion hs
  | succ n ih =>
    intro h h2 hs
    simp only [scanLoop] at hs
    split at hs
    · exact le_trans (Nat.le_add_right _ _) (ih _ _ hs)
    · cases hs
      exact le_refl _

/-- On termination the loop condition is false. -/
theorem scanLoop_exit (fuel : Nat) (m : MM) (size : Nat) :
    ∀ h h2, scanLoop fuel m size h = some h2 →
      ¬(h2 < m.heap_end ∧ (GET_SIZE m h2 < size ∨ GET_STATUS m h2 = ALLOC)) := by
  induction fuel with
  | zero => intro h h2 hs; exact Option.noConfusion hs
  | succ n ih =>
    intro h h2 hs
    simp only [scanLoop] at hs
    split at hs
    · exact ih _ _ hs
    · cases hs
      assumption

/-- C8: a terminating `nf_get_free_block` call scans only forward from the
persisted cursor.  On a miss it resets the cursor to NULL and returns
not-found without wrapping, so the immediately following search starts fresh
at `heap_start`; on a hit it returns the block's payload and leaves the
cursor exactly at the matched block's header (`bp - 8`), not advanced past
it, and the matched block lies at or after the start cursor, below
`heap_end`, with size at least the request and a non-ALLOC status tag. -/
theorem nf_get_free_block_contract (fuel size : Nat) (m m' : MM) (res : Option Nat)
    (h : nfGetFreeBlock fuel m size = some (res, m')) :
    (res = none → m'.nf_ptr = none ∧ nfStart m' = m'.heap_start) ∧
    (∀ bp, res = some bp → m'.nf_ptr = some (bp - 8) ∧
      nfStart m ≤ bp - 8 ∧ bp - 8 < m.heap_end ∧
      size ≤ GET_SIZE m (bp - 8) ∧ GET_STATUS m (bp - 8) ≠ ALLOC ∧
      m'.mem = m.mem ∧ m'.heap_start = m.heap_start ∧ m'.heap_end = m.heap_end) := by
  simp only [nfGetFreeBlock] at h
  split at h
  · exact Option.noConfusion h
  · rename_i hdrp hscan
    split at h
    · rename_i hlt
      injection h with h
      injection h with h1 h2
      subst h1
      subst h2
      constructor
      · intro hre
        exact Option.noConfusion hre
      · intro bp hbp
        injection hbp with hbp
        subst hbp
        have h8 : hdrp + 8 - 8 = hdrp := by omega
        rw [h8]
        have hexit := scanLoop_exit fuel m size _ _ hscan
        push_neg at hexit
        obtain ⟨hge, hstat⟩ := hexit hlt
        exact ⟨rfl, scanLoop_le fuel m size _ _ hscan, hlt, hge, hstat, rfl, rfl, rfl⟩
    · injection h with h
      injection h with h1 h2
      subst h1
      subst h2
      constructor
      · intro hre
        exact ⟨rfl, rfl⟩
      · intro bp hbp
        exact Option.noConfusion hbp

/-- Witness for C8 on the fresh next-fit heap: the NULL cursor starts at
`heap_start = 32`, the scan matches the initial free block immediately,
returns payload 40, and leaves the cursor at header 32. -/
theorem nf_get_free_block_contract_witness :
    ∃ m', nfGetFreeBlock 3 mInitNF 64 = some (some 40, m') ∧
      m'.nf_ptr = some (40 - 8) ∧ 64 ≤ GET_SIZE mInitNF (40 - 8) ∧
      GET_STATUS mInitNF (40 - 8) ≠ ALLOC := by
  refine ⟨_, rfl, ?_⟩
  have hc := nf_get_free_block_contract 3 64 mInitNF _ (some 40) rfl
  obtain ⟨hcur, -, -, hsz, hst, -⟩ := hc.2 40 rfl
  exact ⟨hcur, hsz, hst⟩

/-! Claim C1: best fit misses a block whose size equals the whole heap. -/

/-- C1: on the freshly initialised best-fit heap the walk shows exactly one
free block of size 4032 = `HEAP_SIZE`, which satisfies a request of 64
bytes, yet `bf_get_free_block(64)` terminates with not-found (`some none`):
its minimum tracker starts at `HEAP_SIZE` and only records blocks strictly
smaller, so a free block of size exactly `HEAP_SIZE` is never selected and
`mm_malloc(40)` takes the growth path (returning payload 4096, the old
break) instead of using the available block — contradicting the claim that
the search fails exactly when no qualifying free block exists. -/
theorem bf_get_free_block_misses_heap_size_block :
    walkBlocks 5 mInitBF mInitBF.heap_start = [(32, 4032, FREE)] ∧
    (64 : Nat) ≤ 4032 ∧
    bfGetFreeBlock 5 mInitBF 64 = some none ∧
    (∃ m', mmMalloc 5 mInitBF 40 = some (some 4096, m')) := by
  refine ⟨by decide, by norm_num, by decide, ⟨_, rfl⟩⟩

/-! Claim C2: the growth path breaks the consistency-checker walk. -/

/-- C2: `mm_malloc(5000)` on the fresh first-fit heap takes the growth path:
the break grows by exactly `MAX(asize, CHUNKSIZE) = 5024`, the end sentinel
is rewritten at the new `heap_end = 9088`, and one ALLOC block of 5024 bytes
is returned at payload 4096 — but the subsequent consistency-checker walk
from `heap_start` stops at 4064 (the stale old end sentinel, now inside the
heap) with one footer-mismatch error, instead of reaching the new `heap_end`
with zero errors as the claim requires. -/
theorem mm_malloc_growth_breaks_mm_check :
    mmMalloc 5 mInitFF 5000 = some (some 4096, mGrow) ∧
    asize 5000 = 5024 ∧
    mGrow.ds_heap_brk = mInitFF.ds_heap_brk + max (asize 5000) CHUNKSIZE ∧
    mGrow.heap_end = 9088 ∧
    GET mGrow mGrow.heap_end = PACK 0 ALLOC ∧
    GET_SIZE mGrow (HDRP 4096) = max (asize 5000) CHUNKSIZE ∧
    GET_STATUS mGrow (HDRP 4096) = ALLOC ∧
    checkWalk 10 mGrow mGrow.heap_start = some (4064, 1) ∧
    4064 ≠ mGrow.heap_end ∧ (1 : Nat) ≠ 0 := by
  refine ⟨rfl, by decide, by decide, by decide, by decide, by decide, by decide,
    by decide, by decide, by norm_num⟩

/-! Claim C3: a reachable state on which every free-block search diverges. -/

/-- After the growth path, the stale sentinel word at 4064 still reads
size 0, status ALLOC. -/
theorem mGrow_stale_sentinel : GET mGrow 4064 = 1 ∧ mGrow.heap_end = 9088 := by
  constructor <;> decide

/-- The first-fit scan loop stalls forever on the stale size-0 sentinel at
4064: no amount of fuel finishes it. -/
theorem scanLoop_stalls_at_4064 (fuel : Nat) : scanLoop fuel mGrow 4096 4064 = none := by
  induction fuel with
  | zero => rfl
  | succ n ih =>
    have hcond : 4064 < mGrow.heap_end ∧
        (GET_SIZE mGrow 4064 < 4096 ∨ GET_STATUS mGrow 4064 = ALLOC) := by
      refine ⟨by decide, Or.inl (by decide)⟩
    simp only [scanLoop]
    rw [if_pos hcond]
    have hsz : GET_SIZE mGrow 4064 = 0 := by decide
    rw [hsz]
    exact ih

/-- From `heap_start` the scan reaches 4064 after one step and then stalls. -/
theorem scanLoop_mGrow_diverges (fuel : Nat) : scanLoop fuel mGrow 4096 32 = none := by
  cases fuel with
  | zero => rfl
  | succ n =>
    have hcond : 32 < mGrow.heap_end ∧
        (GET_SIZE mGrow 32 < 4096 ∨ GET_STATUS mGrow 32 = ALLOC) := by
      refine ⟨by decide, Or.inl (by decide)⟩
    simp only [scanLoop]
    rw [if_pos hcond]
    have hsz : GET_SIZE mGrow 32 = 4032 := by decide
    rw [hsz]
    exact scanLoop_stalls_at_4064 n

/-- C3: the state `mGrow` is reachable (initialise with first fit, then
`mm_malloc(5000)` grows the heap), and on it the free-block search — hence
the whole `mm_malloc(4064)` call — terminates at no fuel: the forward scan
stalls on the stale size-0 ALLOC sentinel tag the growth path left inside
`[heap_start, heap_end)`, refuting the claim that every search on every
reachable heap state terminates. -/
theorem search_diverges_on_reachable_state :
    mmMalloc 5 mInitFF 5000 = some (some 4096, mGrow) ∧
    ∀ fuel, mmMalloc fuel mGrow 4064 = none := by
  refine ⟨rfl, fun fuel => ?_⟩
  have ha : asize 4064 = 4096 := by decide
  have hgf : getFreeBlock fuel mGrow 4096 = none := by
    simp only [getFreeBlock, show mGrow.policy = Policy.FirstFit from by decide]
    simp only [ffGetFreeBlock, show mGrow.heap_start = 32 from by decide,
      scanLoop_mGrow_diverges fuel]
  simp only [mmMalloc, ha, hgf]
  rfl

/-! Claim C4: releasing the block at `heap_start` breaks coalescing. -/

/-- C4: a concrete reachable sequence (first fit; `mm_malloc(40)` twice, then
`mm_free` of the first payload 40) after which the heap walk finds the
blocks `(32, 128, FREE)` and `(160, 3904, FREE)` — two positionally adjacent
blocks both FREE.  Releasing the block at `heap_start` misidentifies its
predecessor: `PREV_BLKP` reads the size-0 initial sentinel footer and lands
back on the block itself, whose header was just marked FREE, so the code
takes a previous-merge case and doubles the block instead of applying the
correct no-merge case, leaving adjacent FREE blocks that immediate
unconditional coalescing is claimed to prevent. -/
theorem mm_free_leaves_adjacent_free_blocks :
    mmMalloc 5 mInitFF 40 = some (some 40, mA) ∧
    mmMalloc 5 mA 40 = some (some 104, mB) ∧
    GET_STATUS mB (HDRP 40) = ALLOC ∧
    mmFree mB 40 = some mC4 ∧
    walkBlocks 10 mC4 mC4.heap_start = [(32, 128, FREE), (160, 3904, FREE)] ∧
    32 + 128 = 160 := by
  exact ⟨rfl, rfl, by decide, rfl, by decide, by norm_num⟩

/-! Claim C5: the adjusted block size. -/

/-- Counterexample to C5 as stated: `mm_malloc(40)` can succeed through the
growth path (here after `mm_malloc(4000)` consumed the whole initial free
block), and then the size written into the returned block's tags is
`MAX(asize, CHUNKSIZE) = 4096`, not the adjusted size
`ceil((40 + 16) / 32) * 32 = 64`. -/
theorem mm_malloc_tag_not_always_asize :
    mmMalloc 5 mInitFF 4000 = some (some 40, mFull) ∧
    mmMalloc 5 mFull 40 = some (some 4096, mSmallGrow) ∧
    GET_SIZE mSmallGrow (HDRP 4096) = 4096 ∧
    (40 + 16 + 31) / 32 * 32 = 64 ∧
    (4096 : Nat) ≠ 64 := by
  exact ⟨rfl, rfl, by decide, by norm_num, by norm_num⟩

/-- Arithmetic of line 255: without 64-bit wrap-around (`n ≤ 2 ^ 64 - 48`)
the adjusted size is the claimed rounding. -/
theorem asize_checks (n : Nat) (h0 : 0 < n) (hn : n ≤ 2 ^ 64 - 48) :
    asize n = (n + 16 + 31) / 32 * 32 ∧ asize n % 32 = 0 ∧
    n + 16 ≤ asize n ∧ asize n ≤ 2 ^ 64 - 32 := by
  unfold asize TYPE_SIZE BS
  have h1 : (n + 2 * 8 - 1) % 2 ^ 64 = n + 15 := Nat.mod_eq_of_lt (by omega)
  rw [h1]
  have h2 : ((n + 15) / 32 + 1) * 32 < 2 ^ 64 := by omega
  rw [Nat.mod_eq_of_lt h2]
  omega

/-- C5 (amended): for every successful `mm_malloc(n)` with `0 < n` that is
satisfied from a found free block (the non-growth path, premise `hf`), and
`n` small enough that the `size_t` computation of line 255 does not wrap
(`n ≤ 2 ^ 64 - 48`), the size written into the returned block's header tag
is the adjusted size, which equals `ceil((n + 16) / 32) * 32 =
(n + 16 + 31) / 32 * 32`, is a multiple of the 32-byte minimum block size,
and is at least `n` plus the 16-byte header/footer overhead. -/
theorem mm_malloc_fit_writes_adjusted_size (fuel n bp : Nat) (m m1 : MM)
    (h0 : 0 < n) (hn : n ≤ 2 ^ 64 - 48)
    (hf : getFreeBlock fuel m (asize n) = some (some bp, m1)) :
    mmMalloc fuel m n = some (some bp, mallocFit m1 bp (asize n)) ∧
    GET_SIZE (mallocFit m1 bp (asize n)) (HDRP bp) = asize n ∧
    asize n = (n + 16 + 31) / 32 * 32 ∧
    asize n % 32 = 0 ∧ n + 16 ≤ asize n := by
  obtain ⟨he, h32, hge, hub⟩ := asize_checks n h0 hn
  have h8 : asize n % 8 = 0 := by omega
  have hpack : PACK (asize n) ALLOC = asize n + 1 :=
    PACK_eq_add _ _ h8 (by decide)
  have hsz : SIZE (PACK (asize n) ALLOC % 2 ^ 64) = asize n := by
    rw [hpack, Nat.mod_eq_of_lt (by omega)]
    unfold SIZE
    omega
  have hne : ¬ n = 0 := by omega
  refine ⟨by simp [mmMalloc, hf, hne], ?_, he, h32, hge⟩
  unfold mallocFit
  split
  · rw [SIZE_PUT]
    split
    · exact hsz
    · rw [SIZE_PUT, if_pos rfl]
      exact hsz
  · rw [SIZE_PUT]
    split
    · exact hsz
    · rw [SIZE_PUT, if_pos rfl]
      exact hsz

/-- Witness for C5 (amended) on the fresh first-fit heap: `mm_malloc(40)`
finds the initial free block and writes an adjusted size of exactly 64, as
in the claim's `allocate(40)` example. -/
theorem mm_malloc_fit_writes_adjusted_size_witness :
    getFreeBlock 3 mInitFF (asize 40) = some (some 40, mInitFF) ∧
    mmMalloc 3 mInitFF 40 = some (some 40, mallocFit mInitFF 40 (asize 40)) ∧
    GET_SIZE (mallocFit mInitFF 40 (asize 40)) (HDRP 40) = asize 40 ∧
    asize 40 = 64 := by
  have hc := mm_malloc_fit_writes_adjusted_size 3 40 40 mInitFF mInitFF
    (by norm_num) (by norm_num) rfl
  exact ⟨rfl, hc.1, hc.2.1, by decide⟩

/-! Claim C9: the alignment computations of `mm_init`. -/

/-- Counterexample to C9 as stated: for the already 32-byte-aligned provider
start 32, `mm_init` sets `heap_start = 64`, not 32 (line 222 computes
`(start + 32) / 32 * 32`, which jumps a full 32 bytes above any aligned
start). -/
theorem mm_init_heap_start_not_round_up :
    (mmInit 32 .FirstFit).heap_start = 64 ∧ (64 : Nat) ≠ 32 := by
  exact ⟨by decide, by norm_num⟩

/-- C9 (amended): `mm_init` computes `heap_start = (start / 32 + 1) * 32`,
i.e. the region start rounded DOWN to the 32-byte minimum-block alignment
plus one alignment unit (equal to rounding up only when the start is
unaligned; for an aligned start it is `start + 32`, leaving room for the
initial sentinel word), and `heap_end = (start + CHUNKSIZE - 1) / 32 * 32`,
i.e. one-less-than-the-break rounded down (equal to rounding the break down
only when the break is unaligned; for an aligned break it is `break - 32`).
Both results are 32-byte aligned and `start < heap_start ≤ start + 32`. -/
theorem mm_init_alignment (s : Nat) (ap : Policy) :
    (mmInit s ap).heap_start = 32 * (s / 32) + 32 ∧
    (mmInit s ap).heap_end = 32 * ((s + 4095) / 32) ∧
    (mmInit s ap).heap_start % 32 = 0 ∧
    (mmInit s ap).heap_end % 32 = 0 ∧
    s < (mmInit s ap).heap_start ∧ (mmInit s ap).heap_start ≤ s + 32 := by
  simp only [mmInit, PUT, CHUNKSIZE, BS]
  refine ⟨by omega, by omega, by omega, by omega, by omega, by omega⟩

/-! Claim C10: the `mm_calloc` byte count wraps modulo `2 ^ 64`. -/

/-- C10: `mm_calloc(count, elem_size)` requests `count * elem_size` reduced
modulo `2 ^ 64`.  When the wrapped product is 0 (hypothesis `h`, e.g.
`count = elem_size = 2 ^ 32`), the underlying `mm_malloc(0)` returns NULL
and `mm_calloc` returns NULL with the state unchanged.  When the true
product `2 ^ 32 * (2 ^ 32 + 1) = 2 ^ 64 + 2 ^ 32` wraps to the non-zero
`2 ^ 32`, the call allocates and zero-fills a block sized by the wrapped
product — the tag holds `asize(2 ^ 32) = 2 ^ 32 + 32`, far smaller than the
true product — rather than failing. -/
theorem mm_calloc_wraps_product (fuel a b : Nat) (m : MM)
    (h : a * b % 2 ^ 64 = 0) :
    mmCalloc fuel m a b = some (none, m) ∧
    mmCalloc 5 mInitFF (2 ^ 32) (2 ^ 32 + 1) = some (some 4096, mCallocWrap) ∧
    GET_SIZE mCallocWrap (HDRP 4096) = 2 ^ 32 + 32 ∧
    2 ^ 32 + 32 < 2 ^ 32 * (2 ^ 32 + 1) := by
  refine ⟨?_, rfl, by decide, by norm_num⟩
  simp only [mmCalloc, h, mmMalloc_zero]

/-- Witness for C10: the product `2 ^ 32 * 2 ^ 32 = 2 ^ 64` wraps to exactly
0, and the corresponding `mm_calloc` returns NULL without side effects. -/
theorem mm_calloc_wraps_product_witness :
    2 ^ 32 * 2 ^ 32 % 2 ^ 64 = 0 ∧
    mmCalloc 3 mInitFF (2 ^ 32) (2 ^ 32) = some (none, mInitFF) := by
  refine ⟨by norm_num, ?_⟩
  exact (mm_calloc_wraps_product 3 (2 ^ 32) (2 ^ 32) mInitFF (by norm_num)).1
